import Mathlib

/-!
Verification of the authorization / ownership / order-placement logic of the
Ecommerce-App repository (Django + DRF), shallowly embedded in Lean 4.

The embedding follows the source files:
  * `ecommerce/models.py`   — data model (Store, Product, Order, OrderItem, Review)
  * `api/permissions.py`    — IsVendor, IsBuyer, IsOwnerOrReadOnly permission classes
  * `api/serializers.py`    — ProductSerializer, StoreSerializer, ReviewSerializer
  * `api/views.py`          — product detail update hard guards, review creation
  * `ecommerce/views.py`    — HTML views: product_update, store_create, add_review,
                              place_order
Monetary amounts (DecimalField) are modelled as integers (a fixed-point view of
decimals: only +, * and comparisons occur in the source).  Database rows are
lists of records; the session cart is an association list product id -> qty.
-/

namespace ECom

/-- A Django auth user, as seen by the request handlers: identity, auth flags,
group names, and permission codenames granted directly or via groups
(`user_permissions` / `groups.permissions` in `_user_has_price_perm`). -/
structure User where
  id : Nat
  isAuthenticated : Bool
  isStaff : Bool
  isSuperuser : Bool
  groups : List String
  userPermCodenames : List String
  groupPermCodenames : List String
deriving DecidableEq, Repr

/-- `ecommerce.models.Store`: vendor FK, name, description. -/
structure Store where
  id : Nat
  vendorId : Nat
  name : String
  description : String
deriving DecidableEq, Repr

/-- `ecommerce.models.Product`: nullable store FK, name, price, stock. -/
structure Product where
  id : Nat
  storeId : Option Nat
  name : String
  price : Int
  stock : Nat
deriving DecidableEq, Repr

/-- `ecommerce.models.Order`. -/
structure Order where
  id : Nat
  userId : Nat
  total : Int
  status : String
deriving DecidableEq, Repr

/-- `ecommerce.models.OrderItem`: order FK, product FK, qty, price_snapshot. -/
structure OrderItem where
  orderId : Nat
  productId : Nat
  qty : Nat
  priceSnapshot : Int
deriving DecidableEq, Repr

/-- `ecommerce.models.Review`: user FK, product FK, rating, comment, verified. -/
structure Review where
  id : Nat
  userId : Nat
  productId : Nat
  rating : Nat
  comment : String
  verified : Bool
deriving DecidableEq, Repr

/-- The persistent state (database tables) plus the session cart.  The `next*`
counters model the auto-increment primary keys.  The cart maps product id to
the requested quantity (an `Int`, since the session may in principle hold
non-positive values, which `place_order` skips). -/
structure State where
  stores : List Store
  products : List Product
  reviews : List Review
  orders : List Order
  orderItems : List OrderItem
  cart : List (Nat × Int)
  nextStoreId : Nat
  nextOrderId : Nat
  nextReviewId : Nat
deriving DecidableEq, Repr

/-- The error taxonomy of the denial / failure paths in the source
(`PermissionDenied`, `ValidationError`, 404s, checkout failures).
`ServerFault` stands for an unhandled exception (`AttributeError` on a null
store in `product_update`, `ProtectedError` on deleting a purchased product). -/
inductive ApiError where
  | AuthenticationRequired
  | RoleNotPermitted
  | NotOwner
  | MissingFieldPermission
  | StoreImmutable
  | InvalidValue (field : String)
  | DuplicateReview
  | SelfReview
  | NotFound
  | EmptyCart
  | NoValidItems
  | InsufficientStock (productId : Nat)
  | ServerFault
deriving DecidableEq, Repr

-- ---------- lookups ----------

/-- Primary-key lookup of a store. -/
def findStore (s : State) (sid : Nat) : Option Store :=
  s.stores.find? (fun st => st.id == sid)

/-- Primary-key lookup of a product. -/
def findProduct (s : State) (pid : Nat) : Option Product :=
  s.products.find? (fun p => p.id == pid)

/-- Resolve `product.store` (None when the FK is null or dangling). -/
def productStore (s : State) (p : Product) : Option Store :=
  match p.storeId with
  | none => none
  | some sid => findStore s sid

-- ---------- request-level helpers (api/permissions.py, api/views.py) ----------

/-- Python's `str.strip()` (also what Django's `CharField` applies): drop
leading and trailing whitespace.  Implemented over the character list so that
it evaluates by kernel reduction. -/
def pyStrip (s : String) : String :=
  String.mk (((s.data.dropWhile Char.isWhitespace).reverse.dropWhile
    Char.isWhitespace).reverse)

/-- `api.permissions._is_staff_or_superuser`. -/
def is_staff_or_superuser (u : User) : Bool :=
  u.isStaff || u.isSuperuser

/-- `ecommerce.views._is_vendor`: authenticated and in the Vendors group. -/
def is_vendor (u : User) : Bool :=
  u.isAuthenticated && u.groups.contains ("Vendors")

/-- Django `User.has_perm` (ModelBackend): superusers hold every permission,
otherwise the permission must be granted directly or through a group. -/
def has_perm (u : User) (codename : String) : Bool :=
  u.isAuthenticated &&
    (u.isSuperuser || u.userPermCodenames.contains codename ||
      u.groupPermCodenames.contains codename)

/-- `api.views._user_has_price_perm`: anonymous users fail, superusers pass,
otherwise the `can_change_product_price` codename must be granted directly or
through a group. -/
def user_has_price_perm (u : User) : Bool :=
  if !u.isAuthenticated then false
  else if u.isSuperuser then true
  else
    u.userPermCodenames.contains ("can_change_product_price") ||
      u.groupPermCodenames.contains ("can_change_product_price")

/-- `api.permissions.IsVendor.has_permission` for a request whose method is
safe (`safeMethod = true`) or unsafe. -/
def isVendor_has_permission (safeMethod : Bool) (u : User) : Bool :=
  if safeMethod then true
  else if is_staff_or_superuser u then true
  else u.isAuthenticated && u.groups.contains ("Vendors")

/-- `api.permissions.IsBuyer.has_permission`. -/
def isBuyer_has_permission (safeMethod : Bool) (u : User) : Bool :=
  if safeMethod then true
  else if is_staff_or_superuser u then true
  else u.isAuthenticated && u.groups.contains ("Buyers")

/-- `api.permissions.IsOwnerOrReadOnly.has_object_permission`, applied to a
product whose `store` attribute has already been resolved (the `vendor` object
and the raw `vendor_id` column agree in the model, so the two source branches
collapse into one comparison). -/
def isOwnerOrReadOnly_has_object_permission
    (safeMethod : Bool) (u : User) (store : Option Store) : Bool :=
  if safeMethod then true
  else if !u.isAuthenticated then false
  else if is_staff_or_superuser u then true
  else
    match store with
    | none => false
    | some st => st.vendorId == u.id

-- ---------- review-related queries ----------

/-- `Review.objects.filter(user=..., product=...).exists()`. -/
def hasReview (s : State) (uid pid : Nat) : Bool :=
  s.reviews.any (fun r => r.userId == uid && r.productId == pid)

/-- `OrderItem.objects.filter(order__user=..., product=...).exists()`. -/
def purchased (s : State) (uid pid : Nat) : Bool :=
  s.orderItems.any (fun it =>
    it.productId == pid &&
      s.orders.any (fun o => o.id == it.orderId && o.userId == uid))

-- ---------- API product update (views + serializer pipeline) ----------

/-- The writable fields a PATCH/PUT request may carry for a product
(`request.data` / `validated_data`); `none` means the field is absent. -/
structure ProductAttrs where
  storeId : Option Nat
  name : Option String
  price : Option Int
  stock : Option Int
deriving DecidableEq, Repr

/-- `super().update(instance, validated_data)`: apply the present fields.  A
validated stock is non-negative, so `Int.toNat` is lossless there. -/
def applyAttrs (p : Product) (attrs : ProductAttrs) : Product :=
  { id := p.id
    storeId := match attrs.storeId with
               | some sid => some sid
               | none => p.storeId
    name := attrs.name.getD p.name
    price := attrs.price.getD p.price
    stock := match attrs.stock with
             | some v => v.toNat
             | none => p.stock }

/-- The full API update pipeline for `PATCH/PUT /products/<pid>` — in source
order: the `ProductDetailAPIView.patch/put` hard price guard, then
`get_object` (404 + `IsOwnerOrReadOnly` object check), then the serializer
field validators (`validate_price`, `validate_stock`), then
`ProductSerializer.validate` (auth, Vendors group, store resolution, ownership
of the resolved store, store immutability, friendly price guard), then the
decisive price guard of `ProductSerializer.update`, then the save.
On any error the transaction leaves the state unchanged. -/
def api_product_update (s : State) (u : User) (pid : Nat) (attrs : ProductAttrs) :
    Except ApiError Unit × State :=
  if attrs.price.isSome && !user_has_price_perm u then
    (Except.error ApiError.MissingFieldPermission, s)
  else
    match findProduct s pid with
    | none => (Except.error ApiError.NotFound, s)
    | some p =>
      if !isOwnerOrReadOnly_has_object_permission false u (productStore s p) then
        if !u.isAuthenticated then (Except.error ApiError.AuthenticationRequired, s)
        else (Except.error ApiError.NotOwner, s)
      else if attrs.price.any (fun v => v < 0) then
        (Except.error (ApiError.InvalidValue ("price")), s)
      else if attrs.stock.any (fun v => v < 0) then
        (Except.error (ApiError.InvalidValue ("stock")), s)
      else if !u.isAuthenticated then
        (Except.error ApiError.AuthenticationRequired, s)
      else if !(u.groups.contains ("Vendors")) then
        (Except.error ApiError.RoleNotPermitted, s)
      else
        -- store := attrs.get("store") or self.instance.store
        match attrs.storeId with
        | some sid =>
          match findStore s sid with
          | none => (Except.error (ApiError.InvalidValue ("store")), s)
          | some st =>
            if st.vendorId != u.id then (Except.error ApiError.NotOwner, s)
            else if p.storeId != some sid then (Except.error ApiError.StoreImmutable, s)
            else if attrs.price.isSome && !has_perm u ("can_change_product_price") then
              (Except.error ApiError.MissingFieldPermission, s)
            else
              (Except.ok (),
                { s with products :=
                    s.products.map (fun q => if q.id == pid then applyAttrs q attrs else q) })
        | none =>
          match p.storeId with
          | none => (Except.error (ApiError.InvalidValue ("store")), s)
          | some psid =>
            match findStore s psid with
            | none => (Except.error ApiError.NotFound, s)
            | some st =>
              if st.vendorId != u.id then (Except.error ApiError.NotOwner, s)
              else if attrs.price.isSome && !has_perm u ("can_change_product_price") then
                (Except.error ApiError.MissingFieldPermission, s)
              else
                (Except.ok (),
                  { s with products :=
                      s.products.map (fun q => if q.id == pid then applyAttrs q attrs else q) })

/-- `DELETE /products/<pid>` (`ProductDetailAPIView`): object lookup, the
`IsOwnerOrReadOnly` object check (no role check on this path), then deletion.
`OrderItem.product` uses `on_delete=PROTECT`, so deleting a purchased product
raises (`ServerFault`); reviews cascade. -/
def api_product_delete (s : State) (u : User) (pid : Nat) :
    Except ApiError Unit × State :=
  match findProduct s pid with
  | none => (Except.error ApiError.NotFound, s)
  | some p =>
    if !isOwnerOrReadOnly_has_object_permission false u (productStore s p) then
      if !u.isAuthenticated then (Except.error ApiError.AuthenticationRequired, s)
      else (Except.error ApiError.NotOwner, s)
    else if s.orderItems.any (fun it => it.productId == pid) then
      (Except.error ApiError.ServerFault, s)
    else
      (Except.ok (),
        { s with products := s.products.filter (fun q => q.id != pid)
                 reviews := s.reviews.filter (fun r => r.productId != pid) })

-- ---------- HTML vendor product update (ecommerce/views.py product_update) ----------

/-- The (validated) data of `ProductForm` — all four model fields; the store
choice is a nullable FK (`blank=True`). -/
structure ProductFormData where
  storeId : Option Nat
  name : String
  price : Int
  stock : Nat
deriving DecidableEq, Repr

/-- `ecommerce.views.product_update`: login gate, `_is_vendor_or_403`,
`_own_product_or_404` (product whose store's vendor is the requester), then
`ProductForm` validation (the store dropdown is limited to the requester's own
stores), the redundant `p.store.vendor_id` check, and a full save — including
a *changed* store.  A form that leaves the store blank makes the view touch
`p.store.vendor_id` on `None` (`ServerFault`). -/
def product_update (s : State) (u : User) (pid : Nat) (fd : ProductFormData) :
    Except ApiError Unit × State :=
  if !u.isAuthenticated then (Except.error ApiError.AuthenticationRequired, s)
  else if !is_vendor u then (Except.error ApiError.RoleNotPermitted, s)
  else
    match findProduct s pid with
    | none => (Except.error ApiError.NotFound, s)
    | some p =>
      match productStore s p with
      | none => (Except.error ApiError.NotFound, s)
      | some owned =>
        if owned.vendorId != u.id then (Except.error ApiError.NotFound, s)
        else if pyStrip fd.name == "" then (Except.error (ApiError.InvalidValue ("name")), s)
        else
          match fd.storeId with
          | none => (Except.error ApiError.ServerFault, s)
          | some sid =>
            match findStore s sid with
            | none => (Except.error (ApiError.InvalidValue ("store")), s)
            | some chosen =>
              if chosen.vendorId != u.id then
                (Except.error (ApiError.InvalidValue ("store")), s)
              else
                let p2 : Product :=
                  { id := pid, storeId := some sid, name := fd.name,
                    price := fd.price, stock := fd.stock }
                (Except.ok (),
                  { s with products :=
                      s.products.map (fun q => if q.id == pid then p2 else q) })

-- ---------- store creation ----------

/-- `POST /stores` (`StoreListCreateAPIView` + `StoreSerializer`): the
`IsAuthenticatedOrReadOnly` and `IsVendor` permission classes, then
`validate_name` (non-blank after strip), then `StoreSerializer.create`, whose
own auth/role checks have *no* staff bypass; the vendor is forced to the
requesting user. -/
def api_store_create (s : State) (u : User) (name description : String) :
    Except ApiError Store × State :=
  if !u.isAuthenticated then (Except.error ApiError.AuthenticationRequired, s)
  else if !isVendor_has_permission false u then (Except.error ApiError.RoleNotPermitted, s)
  else if pyStrip name == "" then (Except.error (ApiError.InvalidValue ("name")), s)
  else if !(u.groups.contains ("Vendors")) then (Except.error ApiError.RoleNotPermitted, s)
  else
    let st : Store :=
      { id := s.nextStoreId, vendorId := u.id, name := pyStrip name,
        description := description }
    (Except.ok st,
      { s with stores := s.stores ++ [st], nextStoreId := s.nextStoreId + 1 })

/-- `ecommerce.views.store_create`: login gate, `_is_vendor_or_403` (no staff
bypass), `StoreForm` validation, owner forced to the requester. -/
def store_create (s : State) (u : User) (name description : String) :
    Except ApiError Store × State :=
  if !u.isAuthenticated then (Except.error ApiError.AuthenticationRequired, s)
  else if !is_vendor u then (Except.error ApiError.RoleNotPermitted, s)
  else if pyStrip name == "" then (Except.error (ApiError.InvalidValue ("name")), s)
  else
    let st : Store :=
      { id := s.nextStoreId, vendorId := u.id, name := pyStrip name,
        description := description }
    (Except.ok st,
      { s with stores := s.stores ++ [st], nextStoreId := s.nextStoreId + 1 })

-- ---------- review creation ----------

/-- `POST /products/<pid>/reviews` (`ProductReviewListCreateAPIView` +
`ReviewSerializer`): auth, `IsBuyer`, `validate_rating`, product 404, the
self-review guard (`user.id == product.store.vendor_id`), the duplicate
guard, then the save.  `verified` is a read-only serializer field, so the
created row keeps the model default `False` — nothing on this path computes
it. -/
def api_create_review (s : State) (u : User) (pid : Nat) (rating : Nat)
    (comment : String) : Except ApiError Review × State :=
  if !u.isAuthenticated then (Except.error ApiError.AuthenticationRequired, s)
  else if !isBuyer_has_permission false u then (Except.error ApiError.RoleNotPermitted, s)
  else if !(1 ≤ rating && rating ≤ 5) then (Except.error (ApiError.InvalidValue ("rating")), s)
  else
    match findProduct s pid with
    | none => (Except.error ApiError.NotFound, s)
    | some p =>
      if (match productStore s p with
          | some st => st.vendorId == u.id
          | none => false) then
        (Except.error ApiError.SelfReview, s)
      else if hasReview s u.id pid then
        (Except.error ApiError.DuplicateReview, s)
      else
        let r : Review :=
          { id := s.nextReviewId, userId := u.id, productId := pid,
            rating := rating, comment := comment, verified := false }
        (Except.ok r,
          { s with reviews := s.reviews ++ [r], nextReviewId := s.nextReviewId + 1 })

/-- `ecommerce.views.add_review`: login gate, product 404, `ReviewForm`
validation (rating 1..5), the duplicate guard, then the save with
`verified := OrderItem.objects.filter(order__user=user, product=product).exists()`.
There is *no* self-review guard on this path. -/
def add_review (s : State) (u : User) (pid : Nat) (rating : Nat)
    (comment : String) : Except ApiError Review × State :=
  if !u.isAuthenticated then (Except.error ApiError.AuthenticationRequired, s)
  else
    match findProduct s pid with
    | none => (Except.error ApiError.NotFound, s)
    | some _ =>
      if !(1 ≤ rating && rating ≤ 5) then
        (Except.error (ApiError.InvalidValue ("rating")), s)
      else if hasReview s u.id pid then
        (Except.error ApiError.DuplicateReview, s)
      else
        let r : Review :=
          { id := s.nextReviewId, userId := u.id, productId := pid,
            rating := rating, comment := comment,
            verified := purchased s u.id pid }
        (Except.ok r,
          { s with reviews := s.reviews ++ [r], nextReviewId := s.nextReviewId + 1 })

-- ---------- order placement (ecommerce/views.py place_order) ----------

/-- `int(cart.get(str(p.id), 0))`. -/
def lookupQty (cart : List (Nat × Int)) (pid : Nat) : Int :=
  match cart.find? (fun e => e.1 == pid) with
  | some e => e.2
  | none => 0

/-- `Product.objects.select_for_update().filter(id__in=ids)`. -/
def fetchCartProducts (products : List Product) (cart : List (Nat × Int)) :
    List Product :=
  products.filter (fun p => cart.any (fun e => e.1 == p.id))

/-- The validation loop of `place_order`: skip non-positive quantities, abort
on the first product with insufficient stock, otherwise collect the lines
`(product, qty)` in fetch order. -/
def collectLines (cart : List (Nat × Int)) : List Product →
    Except ApiError (List (Product × Nat))
  | [] => Except.ok []
  | p :: rest =>
    let qty := lookupQty cart p.id
    if qty ≤ 0 then collectLines cart rest
    else if (p.stock : Int) < qty then Except.error (ApiError.InsufficientStock p.id)
    else
      match collectLines cart rest with
      | Except.error e => Except.error e
      | Except.ok ls => Except.ok ((p, qty.toNat) :: ls)

/-- `total += p.price * qty` over the collected lines. -/
def linesTotal (ls : List (Product × Nat)) : Int :=
  ls.foldl (fun acc pq => acc + pq.1.price * (pq.2 : Int)) 0

/-- `ecommerce.views.place_order` (one atomic transaction): empty-cart fast
fail, fetch + validate, then create the Order and its items with
`price_snapshot` = the current price, decrement each line's stock
(`max(0, stock - qty)` is `Nat` subtraction), and clear the cart.  Every
error path leaves the state untouched (the checks all precede the writes,
and the whole view runs in `transaction.atomic`). -/
def place_order (s : State) (u : User) : Except ApiError Order × State :=
  if !u.isAuthenticated then (Except.error ApiError.AuthenticationRequired, s)
  else if s.cart.isEmpty then (Except.error ApiError.EmptyCart, s)
  else
    match collectLines s.cart (fetchCartProducts s.products s.cart) with
    | Except.error e => (Except.error e, s)
    | Except.ok [] => (Except.error ApiError.NoValidItems, s)
    | Except.ok (l :: ls) =>
      let lines := l :: ls
      let order : Order :=
        { id := s.nextOrderId, userId := u.id, total := linesTotal lines,
          status := "paid" }
      let items : List OrderItem :=
        lines.map (fun pq =>
          { orderId := order.id, productId := pq.1.id, qty := pq.2,
            priceSnapshot := pq.1.price })
      let products2 :=
        s.products.map (fun q =>
          match lines.find? (fun pq => pq.1.id == q.id) with
          | some pq => { q with stock := q.stock - pq.2 }
          | none => q)
      (Except.ok order,
        { s with products := products2,
                 orders := s.orders ++ [order],
                 orderItems := s.orderItems ++ items,
                 cart := [],
                 nextOrderId := s.nextOrderId + 1 })

-- ---------- concrete sample data (for witnesses and counterexamples) ----------

/-- A store-less product (the `null=True` FK case of `Product.store`). -/
def orphanProduct : Product :=
  { id := 99, storeId := none, name := "Orphan", price := 100, stock := 1 }

/-- Product 10, owned (via store 1) by vendor 1. -/
def sampleProduct : Product :=
  { id := 10, storeId := some 1, name := "P", price := 500, stock := 5 }

/-- Product 11, owned (via store 3) by vendor 2. -/
def otherProduct : Product :=
  { id := 11, storeId := some 3, name := "Q", price := 300, stock := 2 }

/-- Two stores of vendor 1 and one store of vendor 2, two products. -/
def sampleState : State :=
  { stores := [{ id := 1, vendorId := 1, name := "S1", description := "" },
               { id := 2, vendorId := 1, name := "S2", description := "" },
               { id := 3, vendorId := 2, name := "S3", description := "" }]
    products := [sampleProduct, otherProduct]
    reviews := []
    orders := []
    orderItems := []
    cart := []
    nextStoreId := 4
    nextOrderId := 1
    nextReviewId := 1 }

/-- Vendor 1: authenticated vendor, owner of stores 1 and 2, without the
price capability. -/
def vendorOwner : User :=
  { id := 1, isAuthenticated := true, isStaff := false, isSuperuser := false,
    groups := ["Vendors"], userPermCodenames := [], groupPermCodenames := [] }

/-- Vendor 1 with the `can_change_product_price` capability granted directly. -/
def vendorWithPerm : User :=
  { vendorOwner with userPermCodenames := ["can_change_product_price"] }

/-- Vendor 1 additionally in the Buyers group (so `IsBuyer` passes). -/
def vendorBuyer : User :=
  { vendorOwner with groups := ["Vendors", "Buyers"] }

/-- A staff member (not superuser), in no group, with no capability. -/
def staffUser : User :=
  { id := 3, isAuthenticated := true, isStaff := true, isSuperuser := false,
    groups := [], userPermCodenames := [], groupPermCodenames := [] }

/-- An ordinary buyer. -/
def buyerUser : User :=
  { id := 4, isAuthenticated := true, isStaff := false, isSuperuser := false,
    groups := ["Buyers"], userPermCodenames := [], groupPermCodenames := [] }

/-- A PATCH body that touches only the price. -/
def priceAttrs : ProductAttrs :=
  { storeId := none, name := none, price := some 600, stock := none }

/-- A PATCH body that proposes moving product 10 to store 2. -/
def moveAttrs : ProductAttrs :=
  { storeId := some 2, name := none, price := none, stock := none }

/-- A PATCH body that touches only the name. -/
def nameAttrs : ProductAttrs :=
  { storeId := none, name := some ("P2"), price := none, stock := none }

/-- The HTML form data moving product 10 to store 2 (same name/price/stock). -/
def moveFormData : ProductFormData :=
  { storeId := some 2, name := "P", price := 500, stock := 5 }

/-- State in which buyer 4 has bought product 10 (order 1, one line). -/
def purchasedState : State :=
  { sampleState with
      orders := [{ id := 1, userId := 4, total := 500, status := "paid" }],
      orderItems := [{ orderId := 1, productId := 10, qty := 1, priceSnapshot := 500 }],
      nextOrderId := 2 }

/-- State in which buyer 4 already reviewed product 10. -/
def reviewedState : State :=
  { sampleState with
      reviews := [{ id := 1, userId := 4, productId := 10, rating := 4,
                    comment := "good", verified := false }],
      nextReviewId := 2 }

/-- A cart asking for more of product 11 than its stock (3 > 2). -/
def insufficientCartState : State :=
  { sampleState with cart := [(11, 3)] }

/-- A satisfiable two-line cart: 2 of product 10, 1 of product 11. -/
def happyCartState : State :=
  { sampleState with cart := [(10, 2), (11, 1)] }

/-- A cart mixing an unknown product id and a non-positive quantity with one
valid line. -/
def mixedCartState : State :=
  { sampleState with cart := [(99, 2), (10, 0), (11, 1)] }

/-- A cart with only invalid entries (unknown id, non-positive quantity). -/
def uselessCartState : State :=
  { sampleState with cart := [(99, 2), (10, 0)] }

/-- An authenticated non-staff user who owns store 1 without holding the
Vendor role (role membership can differ from store ownership at request
time). -/
def plainOwner : User :=
  { id := 1, isAuthenticated := true, isStaff := false, isSuperuser := false,
    groups := ["Buyers"], userPermCodenames := [], groupPermCodenames := [] }

/-- At most one review per (author, product) pair in a review table
(the `unique_review_per_user_product` DB constraint of `Review.Meta`). -/
def reviewsUnique (l : List Review) : Prop :=
  ∀ r1 ∈ l, ∀ r2 ∈ l, r1.userId = r2.userId → r1.productId = r2.productId →
    r1 = r2

/-- The cart entries `place_order` does not skip: positive quantity and an
existing product. -/
def validCartEntries (s : State) : List (Nat × Int) :=
  s.cart.filter (fun e =>
    decide (0 < e.2) && s.products.any (fun p => p.id == e.1))

/-- The current price of a product (0 for a missing id; used only where the
id is known to exist). -/
def priceOf (s : State) (pid : Nat) : Int :=
  match findProduct s pid with
  | some p => p.price
  | none => 0

-- ---------- general lemmas about the helpers ----------

/-- `_user_has_price_perm` and `has_perm("ecommerce.can_change_product_price")`
agree: both are anonymous-deny, superuser-allow, otherwise a direct or group
grant of the codename. -/
theorem user_has_price_perm_eq_has_perm (u : User) :
    user_has_price_perm u = has_perm u ("can_change_product_price") := by
  cases hA : u.isAuthenticated <;> cases hS : u.isSuperuser <;>
    simp [user_has_price_perm, has_perm, hA, hS]

/-- The API update pipeline reports `MissingFieldPermission` only when the
requester lacks the price capability. -/
theorem api_product_update_mfp_inv (s : State) (u : User) (pid : Nat)
    (attrs : ProductAttrs)
    (h : (api_product_update s u pid attrs).1 =
      Except.error ApiError.MissingFieldPermission) :
    user_has_price_perm u = false := by
  by_cases hp : user_has_price_perm u = true
  · exfalso
    have hhp : has_perm u ("can_change_product_price") = true := by
      rw [← user_has_price_perm_eq_has_perm]
      exact hp
    unfold api_product_update at h
    rw [hp] at h
    simp only [Bool.not_true, Bool.and_false, Bool.false_eq_true, if_false] at h
    cases hfp : findProduct s pid <;> simp only [hfp] at h
    · simp at h
    · simp only [hhp, Bool.not_true, Bool.and_false, Bool.false_eq_true] at h
      repeat' split at h
      all_goals simp_all
  · revert hp
    cases user_has_price_perm u <;> simp

-- ---------- Claim C10 ----------

/-- Claim C10: for a Product whose store reference is null, every safe-method
object access under `IsOwnerOrReadOnly` is allowed for everyone, while every
unsafe-method access is allowed exactly for authenticated staff/superusers —
in particular it is denied for every authenticated non-staff principal. -/
theorem c10_storeless_product_access (s : State) (p : Product) (u : User)
    (hnull : p.storeId = none) :
    productStore s p = none ∧
    isOwnerOrReadOnly_has_object_permission true u (productStore s p) = true ∧
    isOwnerOrReadOnly_has_object_permission false u (productStore s p) =
      (u.isAuthenticated && is_staff_or_superuser u) := by
  have hps : productStore s p = none := by simp [productStore, hnull]
  refine ⟨hps, by simp [isOwnerOrReadOnly_has_object_permission], ?_⟩
  rw [hps]
  cases hA : u.isAuthenticated <;> cases hS : is_staff_or_superuser u <;>
    simp [isOwnerOrReadOnly_has_object_permission, hA, hS]

/-- Witness for C10 at a concrete store-less product and non-staff user. -/
theorem c10_storeless_product_access_witness :
    productStore sampleState orphanProduct = none ∧
    isOwnerOrReadOnly_has_object_permission true buyerUser
      (productStore sampleState orphanProduct) = true ∧
    isOwnerOrReadOnly_has_object_permission false buyerUser
      (productStore sampleState orphanProduct) =
      (buyerUser.isAuthenticated && is_staff_or_superuser buyerUser) :=
  c10_storeless_product_access sampleState orphanProduct buyerUser rfl

-- ---------- Claim C1 ----------

/-- Counterexample to C1 as stated: a *staff* (non-superuser) principal
without the `can_change_product_price` capability IS denied with
`MissingFieldPermission` on a price update, although the claim exempts
staff. -/
theorem c1_counterexample :
    staffUser.isStaff = true ∧ staffUser.isSuperuser = false ∧
    staffUser.userPermCodenames = [] ∧ staffUser.groupPermCodenames = [] ∧
    priceAttrs.price.isSome = true ∧
    (api_product_update sampleState staffUser 10 priceAttrs).1 =
      Except.error ApiError.MissingFieldPermission :=
  ⟨rfl, rfl, rfl, rfl, rfl, rfl⟩

/-- Claim C1 (amended: staff status alone does not bypass the price check —
only superusers and capability holders do): a price-touching update is denied
with `MissingFieldPermission` exactly when the requester lacks
`_user_has_price_perm`, which holds iff the requester is authenticated and is
a superuser or holds the capability directly or via a group; this applies
even to the owner of the product's store, and a capability holder is never
denied for the price field. -/
theorem c1_price_field_guard (s : State) (u : User) (pid : Nat)
    (attrs : ProductAttrs) (hprice : attrs.price.isSome = true) :
    (user_has_price_perm u = false →
      (api_product_update s u pid attrs).1 =
        Except.error ApiError.MissingFieldPermission) ∧
    (user_has_price_perm u = true →
      (api_product_update s u pid attrs).1 ≠
        Except.error ApiError.MissingFieldPermission) ∧
    user_has_price_perm u =
      (u.isAuthenticated && (u.isSuperuser ||
        u.userPermCodenames.contains ("can_change_product_price") ||
        u.groupPermCodenames.contains ("can_change_product_price"))) := by
  refine ⟨?_, ?_, ?_⟩
  · intro hperm
    unfold api_product_update
    simp [hprice, hperm]
  · intro hperm hcontra
    have := api_product_update_mfp_inv s u pid attrs hcontra
    rw [hperm] at this
    exact Bool.noConfusion this
  · cases hA : u.isAuthenticated <;> cases hS : u.isSuperuser <;>
      simp [user_has_price_perm, hA, hS]

/-- Witness for C1: the owner of the store, lacking the capability, is denied
even though they own the resource; the same owner holding the capability is
not denied with `MissingFieldPermission`. -/
theorem c1_price_field_guard_witness :
    (api_product_update sampleState vendorOwner 10 priceAttrs).1 =
      Except.error ApiError.MissingFieldPermission ∧
    (api_product_update sampleState vendorWithPerm 10 priceAttrs).1 ≠
      Except.error ApiError.MissingFieldPermission :=
  ⟨(c1_price_field_guard sampleState vendorOwner 10 priceAttrs rfl).1 rfl,
   (c1_price_field_guard sampleState vendorWithPerm 10 priceAttrs rfl).2.1 rfl⟩

-- ---------- Claim C2 ----------

/-- In a table with distinct ids, any row sharing the id of the row found by
`find?` is that row. -/
theorem find_eq_of_nodup_ids {l : List Product} {pid : Nat} {p q : Product}
    (hnd : (l.map Product.id).Nodup)
    (hfind : l.find? (fun r => r.id == pid) = some p)
    (hq : q ∈ l) (hid : q.id = pid) : q = p := by
  induction l with
  | nil => cases hq
  | cons a t ih =>
    simp only [List.map_cons, List.nodup_cons] at hnd
    rcases List.mem_cons.mp hq with rfl | hqt
    · rw [List.find?_cons_of_pos _ (by simp [hid])] at hfind
      exact Option.some.inj hfind
    · by_cases ha : a.id = pid
      · exact absurd (ha ▸ hid ▸ List.mem_map_of_mem Product.id hqt) hnd.1
      · rw [List.find?_cons_of_neg _ (by simp [ha])] at hfind
        exact ih hnd.2 hfind hqt

set_option maxHeartbeats 1600000 in
/-- Inversion of a *successful* API product update: the product existed, the
request either did not name a store or named the product's current store, and
the new state is the pointwise field application. -/
theorem api_product_update_ok_inv (s : State) (u : User) (pid : Nat)
    (attrs : ProductAttrs) (s2 : State)
    (h : api_product_update s u pid attrs = (Except.ok (), s2)) :
    ∃ p, findProduct s pid = some p ∧
      (attrs.storeId = none ∨ attrs.storeId = p.storeId) ∧
      s2 = { s with products :=
        s.products.map (fun q => if q.id == pid then applyAttrs q attrs else q) } := by
  unfold api_product_update at h
  split at h
  · exact Except.noConfusion (congrArg Prod.fst h)
  · cases hfp : findProduct s pid with
    | none =>
      simp only [hfp] at h
      exact Except.noConfusion (congrArg Prod.fst h)
    | some p =>
      simp only [hfp] at h
      refine ⟨p, rfl, ?_⟩
      repeat' split at h
      all_goals simp only [Prod.mk.injEq] at h
      all_goals (try (exact Except.noConfusion h.1))
      all_goals refine ⟨?_, h.2.symm⟩
      all_goals first
        | exact Or.inl (by assumption)
        | exact Or.inr (by simp_all)

/-- When the request names no store, or names the product's current store,
the field application keeps the id and the store reference. -/
theorem applyAttrs_preserves (q : Product) (attrs : ProductAttrs)
    (h : attrs.storeId = none ∨ attrs.storeId = q.storeId) :
    (applyAttrs q attrs).id = q.id ∧ (applyAttrs q attrs).storeId = q.storeId := by
  refine ⟨rfl, ?_⟩
  rcases h with h | h
  · simp [applyAttrs, h]
  · cases hq : q.storeId with
    | none => rw [hq] at h; simp [applyAttrs, h, hq]
    | some n => rw [hq] at h; simp [applyAttrs, h, hq]

/-- Counterexample to C2 as stated: through the HTML vendor path
(`product_update`), vendor 1 moves product 10 from their store 1 to their
store 2 — the store reference of an existing product *does* change, and the
operation is not denied at all. -/
theorem c2_counterexample :
    findProduct sampleState 10 = some sampleProduct ∧
    sampleProduct.storeId = some 1 ∧
    (product_update sampleState vendorOwner 10 moveFormData).1 = Except.ok () ∧
    Option.map Product.storeId
      (findProduct (product_update sampleState vendorOwner 10 moveFormData).2 10) =
      some (some 2) :=
  ⟨rfl, rfl, rfl, rfl⟩

/-- Claim C2 (amended: the store reference is immutable *on the API update
path only*): a successful API update never changes any product's store; an
API update proposing a different store id never succeeds, and it is denied
with `StoreImmutable` when the requester is an authenticated vendor owning
the proposed store and every earlier guard passes.  The HTML vendor path
(`product_update`) is exempt: it lets the owning vendor move a product
between their own stores (see the counterexample). -/
theorem c2_store_immutability (s : State) (u : User) (pid : Nat)
    (attrs : ProductAttrs) :
    ((s.products.map Product.id).Nodup →
      (api_product_update s u pid attrs).1 = Except.ok () →
      (api_product_update s u pid attrs).2.products.map (fun q => (q.id, q.storeId)) =
        s.products.map (fun q => (q.id, q.storeId))) ∧
    (∀ n p, attrs.storeId = some n → findProduct s pid = some p →
      p.storeId ≠ some n →
      (api_product_update s u pid attrs).1 ≠ Except.ok ()) ∧
    (∀ n p st, findProduct s pid = some p →
      isOwnerOrReadOnly_has_object_permission false u (productStore s p) = true →
      attrs.price = none → attrs.stock = none →
      u.isAuthenticated = true → u.groups.contains ("Vendors") = true →
      attrs.storeId = some n → findStore s n = some st → st.vendorId = u.id →
      p.storeId ≠ some n →
      api_product_update s u pid attrs = (Except.error ApiError.StoreImmutable, s)) := by
  refine ⟨?_, ?_, ?_⟩
  · intro hnd hok
    have hpair : api_product_update s u pid attrs =
        (Except.ok (), (api_product_update s u pid attrs).2) := by
      rw [← hok]
    obtain ⟨p, hfp, hdisj, hs2⟩ := api_product_update_ok_inv s u pid attrs _ hpair
    rw [hs2]
    simp only [List.map_map]
    refine List.map_congr_left ?_
    intro q hq
    simp only [Function.comp_apply]
    by_cases hid : q.id = pid
    · have hqp : q = p := find_eq_of_nodup_ids hnd hfp hq hid
      have hpres := applyAttrs_preserves q attrs (by rw [hqp]; exact hdisj)
      simp [hid, hpres.1, hpres.2]
    · have hbeq : (q.id == pid) = false := by simp [hid]
      simp [hbeq]
  · intro n p hsi hfp hne hok
    have hpair : api_product_update s u pid attrs =
        (Except.ok (), (api_product_update s u pid attrs).2) := by
      rw [← hok]
    obtain ⟨p', hfp', hdisj, _⟩ := api_product_update_ok_inv s u pid attrs _ hpair
    have hpp : p' = p := by rw [hfp] at hfp'; exact (Option.some.inj hfp').symm
    subst hpp
    rcases hdisj with hnone | hsame
    · rw [hsi] at hnone; exact Option.noConfusion hnone
    · rw [hsi] at hsame; exact hne hsame.symm
  · intro n p st hfp hop hpr hstk hauth hgrp hsi hfs hvend hne
    unfold api_product_update
    rw [hpr, hsi]
    simp only [hfp, hop, hauth, hgrp, hfs, hvend, Option.isSome_none,
      Bool.false_and, Bool.not_true, Bool.false_eq_true, if_false,
      Option.any_none, bne_self_eq_false]
    simp [hne, Option.any, hstk, bne]

/-- Witness for C2 at concrete inputs: a successful name-only update keeps
every (id, store) pair; the same vendor proposing their other store is
rejected, specifically with `StoreImmutable`. -/
theorem c2_store_immutability_witness :
    ((api_product_update sampleState vendorOwner 10 nameAttrs).2.products.map
        (fun q => (q.id, q.storeId)) =
      sampleState.products.map (fun q => (q.id, q.storeId))) ∧
    (api_product_update sampleState vendorOwner 10 moveAttrs).1 ≠ Except.ok () ∧
    api_product_update sampleState vendorOwner 10 moveAttrs =
      (Except.error ApiError.StoreImmutable, sampleState) :=
  ⟨(c2_store_immutability sampleState vendorOwner 10 nameAttrs).1 (by decide) rfl,
   (c2_store_immutability sampleState vendorOwner 10 moveAttrs).2.1 2 sampleProduct
     rfl rfl (by decide),
   (c2_store_immutability sampleState vendorOwner 10 moveAttrs).2.2 2 sampleProduct
     { id := 2, vendorId := 1, name := "S2", description := "" }
     rfl rfl rfl rfl rfl rfl rfl rfl rfl (by decide)⟩

-- ---------- Claim C3 ----------

/-- Counterexample to C3 as stated: vendor 1 owns product 10 (via store 1),
yet the HTML path (`add_review`) happily creates their review of their own
product — no `SelfReview` denial on this creation path. -/
theorem c3_counterexample :
    Option.map Store.vendorId (productStore sampleState sampleProduct) =
      some vendorOwner.id ∧
    findProduct sampleState 10 = some sampleProduct ∧
    (add_review sampleState vendorOwner 10 5 "mine").1 =
      Except.ok { id := 1, userId := 1, productId := 10, rating := 5,
                  comment := "mine", verified := false } :=
  ⟨rfl, rfl, rfl⟩

/-- Claim C3 (amended: the self-review denial exists only on the API path):
on the API creation path a principal whose id is the product's resolved owner
id is denied with `SelfReview` (once authentication, the buyer/staff role
check and rating validation pass); the HTML `add_review` path never denies
with `SelfReview`. -/
theorem c3_self_review (s : State) (u : User) (pid : Nat) (rating : Nat)
    (comment : String) :
    (∀ p st, u.isAuthenticated = true →
      isBuyer_has_permission false u = true →
      (1 ≤ rating && rating ≤ 5) = true →
      findProduct s pid = some p → productStore s p = some st →
      st.vendorId = u.id →
      api_create_review s u pid rating comment =
        (Except.error ApiError.SelfReview, s)) ∧
    (add_review s u pid rating comment).1 ≠ Except.error ApiError.SelfReview := by
  constructor
  · intro p st hauth hbuyer hrat hfp hps hvend
    unfold api_create_review
    simp [hauth, hbuyer, hrat, hfp, hps, hvend]
  · unfold add_review
    repeat' split
    all_goals simp

/-- Witness for C3: vendor 1 (also a Buyer) is denied `SelfReview` on the API
path for their own product 10. -/
theorem c3_self_review_witness :
    api_create_review sampleState vendorBuyer 10 5 "mine" =
      (Except.error ApiError.SelfReview, sampleState) :=
  (c3_self_review sampleState vendorBuyer 10 5 "mine").1 sampleProduct
    { id := 1, vendorId := 1, name := "S1", description := "" }
    rfl rfl rfl rfl rfl rfl

-- ---------- Claim C4 ----------

/-- Appending a review for a pair not yet present preserves uniqueness. -/
theorem reviewsUnique_append {l : List Review} {r : Review}
    (h : reviewsUnique l)
    (hnew : l.any (fun r0 => r0.userId == r.userId &&
      r0.productId == r.productId) = false) :
    reviewsUnique (l ++ [r]) := by
  simp only [List.any_eq_false, Bool.and_eq_true, beq_iff_eq, not_and] at hnew
  intro r1 hm1 r2 hm2 hu hp
  rcases List.mem_append.mp hm1 with hl1 | hs1
  · rcases List.mem_append.mp hm2 with hl2 | hs2
    · exact h r1 hl1 r2 hl2 hu hp
    · have hr2 : r2 = r := List.mem_singleton.mp hs2
      exact absurd (hr2 ▸ hp) (hnew r1 hl1 (hr2 ▸ hu))
  · have hr1 : r1 = r := List.mem_singleton.mp hs1
    rcases List.mem_append.mp hm2 with hl2 | hs2
    · exact absurd (hr1 ▸ hp.symm) (hnew r2 hl2 (hr1 ▸ hu.symm))
    · rw [hr1, List.mem_singleton.mp hs2]

/-- The API review path either leaves the review table alone or, when no
review for (requester, product) existed, appends exactly one for that pair. -/
theorem api_create_review_reviews (s : State) (u : User) (pid rating : Nat)
    (c : String) :
    (api_create_review s u pid rating c).2.reviews = s.reviews ∨
    (hasReview s u.id pid = false ∧
      (api_create_review s u pid rating c).2.reviews =
        s.reviews ++ [{ id := s.nextReviewId, userId := u.id, productId := pid,
                        rating := rating, comment := c, verified := false }]) := by
  unfold api_create_review
  repeat' split
  all_goals first
    | exact Or.inl rfl
    | (rename_i hdup
       exact Or.inr ⟨by simpa using hdup, rfl⟩)

/-- Same statement for the HTML review path. -/
theorem add_review_reviews (s : State) (u : User) (pid rating : Nat)
    (c : String) :
    (add_review s u pid rating c).2.reviews = s.reviews ∨
    (hasReview s u.id pid = false ∧
      (add_review s u pid rating c).2.reviews =
        s.reviews ++ [{ id := s.nextReviewId, userId := u.id, productId := pid,
                        rating := rating, comment := c,
                        verified := purchased s u.id pid }]) := by
  unfold add_review
  repeat' split
  all_goals first
    | exact Or.inl rfl
    | (rename_i hdup
       exact Or.inr ⟨by simpa using hdup, rfl⟩)

/-- Claim C4: both review-creation paths preserve the at-most-one-review-per-
(author, product) invariant, and a second creation attempt for a pair that
already has a review (by a non-owner with valid rating on the API path, with
valid rating on the HTML path) is denied with `DuplicateReview`, leaving the
state — in particular the existing review — unchanged. -/
theorem c4_one_review_per_pair (s : State) (u : User) (pid rating : Nat)
    (c : String) :
    (reviewsUnique s.reviews →
      reviewsUnique (api_create_review s u pid rating c).2.reviews) ∧
    (reviewsUnique s.reviews →
      reviewsUnique (add_review s u pid rating c).2.reviews) ∧
    (∀ p, hasReview s u.id pid = true → u.isAuthenticated = true →
      isBuyer_has_permission false u = true →
      (1 ≤ rating && rating ≤ 5) = true →
      findProduct s pid = some p →
      (match productStore s p with
       | some st => st.vendorId == u.id
       | none => false) = false →
      api_create_review s u pid rating c =
        (Except.error ApiError.DuplicateReview, s)) ∧
    (∀ p, hasReview s u.id pid = true → u.isAuthenticated = true →
      findProduct s pid = some p →
      (1 ≤ rating && rating ≤ 5) = true →
      add_review s u pid rating c =
        (Except.error ApiError.DuplicateReview, s)) := by
  refine ⟨?_, ?_, ?_, ?_⟩
  · intro h
    rcases api_create_review_reviews s u pid rating c with heq | ⟨hnone, heq⟩
    · rw [heq]; exact h
    · rw [heq]
      exact reviewsUnique_append h (by simpa [hasReview] using hnone)
  · intro h
    rcases add_review_reviews s u pid rating c with heq | ⟨hnone, heq⟩
    · rw [heq]; exact h
    · rw [heq]
      exact reviewsUnique_append h (by simpa [hasReview] using hnone)
  · intro p hdup hauth hbuyer hrat hfp hself
    unfold api_create_review
    simp [hauth, hbuyer, hrat, hfp, hself, hdup]
  · intro p hdup hauth hfp hrat
    unfold add_review
    simp [hauth, hfp, hrat, hdup]

/-- Witness for C4: buyer 4 already reviewed product 10; a second attempt on
each path is denied with `DuplicateReview` and the state is untouched, and
the invariant is preserved by the API call. -/
theorem c4_one_review_per_pair_witness :
    reviewsUnique (api_create_review reviewedState buyerUser 10 4 "x").2.reviews ∧
    api_create_review reviewedState buyerUser 10 4 "x" =
      (Except.error ApiError.DuplicateReview, reviewedState) ∧
    add_review reviewedState buyerUser 10 4 "x" =
      (Except.error ApiError.DuplicateReview, reviewedState) :=
  ⟨(c4_one_review_per_pair reviewedState buyerUser 10 4 "x").1
      (by intro r1 h1 r2 h2 hu hp; simp only [reviewedState] at h1 h2; simp_all),
   (c4_one_review_per_pair reviewedState buyerUser 10 4 "x").2.2.1 sampleProduct
      rfl rfl rfl rfl rfl rfl,
   (c4_one_review_per_pair reviewedState buyerUser 10 4 "x").2.2.2 sampleProduct
      rfl rfl rfl rfl⟩

-- ---------- Claim C7 ----------

/-- Counterexample to C7 as stated: buyer 4 has an order containing product
10, yet the review created through the API path carries `verified = false` —
the flag is not computed on that creation path. -/
theorem c7_counterexample :
    purchased purchasedState buyerUser.id 10 = true ∧
    (api_create_review purchasedState buyerUser 10 4 "good").1 =
      Except.ok { id := 1, userId := 4, productId := 10, rating := 4,
                  comment := "good", verified := false } :=
  ⟨rfl, rfl⟩

/-- Claim C7 (amended: the purchase check exists only on the HTML path): a
review created through `add_review` carries
`verified = purchased(author, product)` computed server-side, while a review
created through the API path always carries `verified = false`; on neither
path is the flag taken from the client (neither operation has a `verified`
input). -/
theorem c7_verified_computation (s : State) (u : User) (pid rating : Nat)
    (c : String) :
    (∀ rev s2, add_review s u pid rating c = (Except.ok rev, s2) →
      rev.verified = purchased s u.id pid) ∧
    (∀ rev s2, api_create_review s u pid rating c = (Except.ok rev, s2) →
      rev.verified = false) := by
  constructor <;> intro rev s2 h
  · unfold add_review at h
    repeat' split at h
    all_goals simp only [Prod.mk.injEq] at h
    all_goals (try (exact Except.noConfusion h.1))
    cases Except.ok.inj h.1
    rfl
  · unfold api_create_review at h
    repeat' split at h
    all_goals simp only [Prod.mk.injEq] at h
    all_goals (try (exact Except.noConfusion h.1))
    cases Except.ok.inj h.1
    rfl

/-- Witness for C7 at concrete inputs: the HTML review of a purchaser is
verified, the API review of the same purchaser is not. -/
theorem c7_verified_computation_witness :
    ({ id := 1, userId := 4, productId := 10, rating := 4, comment := "good",
       verified := true } : Review).verified =
      purchased purchasedState buyerUser.id 10 ∧
    ({ id := 1, userId := 4, productId := 10, rating := 4, comment := "good",
       verified := false } : Review).verified = false :=
  ⟨(c7_verified_computation purchasedState buyerUser 10 4 "good").1 _
      (add_review purchasedState buyerUser 10 4 "good").2 rfl,
   (c7_verified_computation purchasedState buyerUser 10 4 "good").2 _
      (api_create_review purchasedState buyerUser 10 4 "good").2 rfl⟩

-- ---------- Claim C8 ----------

/-- Counterexample to C8 as stated: a staff principal without the Vendor role
is NOT "allowed past the role check on every write path": creating a store
through the API, they pass `IsVendor` (staff bypass) but are then denied with
the role error by `StoreSerializer.create`, which has no staff bypass. -/
theorem c8_counterexample :
    is_staff_or_superuser staffUser = true ∧
    staffUser.groups.contains ("Vendors") = false ∧
    api_store_create sampleState staffUser "Shop" "d" =
      (Except.error ApiError.RoleNotPermitted, sampleState) :=
  ⟨rfl, rfl, rfl⟩

/-- Claim C8 (amended: staff/superuser bypass only the `IsVendor` permission
class; the serializer-level role checks and the HTML vendor gate deny even
staff, and the API product-delete path has no role check at all): an unsafe
`IsVendor` check passes exactly for staff/superusers and authenticated
Vendors; store creation on either path and product update through the API
deny every authenticated principal lacking the Vendors group — staff
included — with the role error; and an authenticated non-staff owner lacking
the Vendor role can nevertheless delete their product through the API. -/
theorem c8_role_gates (s : State) (u : User) :
    (isVendor_has_permission false u =
      (is_staff_or_superuser u ||
        (u.isAuthenticated && u.groups.contains ("Vendors")))) ∧
    (∀ n d, u.isAuthenticated = true → u.groups.contains ("Vendors") = false →
      pyStrip n ≠ "" →
      api_store_create s u n d = (Except.error ApiError.RoleNotPermitted, s)) ∧
    (∀ n d, u.isAuthenticated = true → u.groups.contains ("Vendors") = false →
      store_create s u n d = (Except.error ApiError.RoleNotPermitted, s)) ∧
    (∀ pid attrs p, findProduct s pid = some p →
      isOwnerOrReadOnly_has_object_permission false u (productStore s p) = true →
      attrs.price = (none : Option Int) → attrs.stock = (none : Option Int) →
      u.isAuthenticated = true → u.groups.contains ("Vendors") = false →
      api_product_update s u pid attrs =
        (Except.error ApiError.RoleNotPermitted, s)) ∧
    (∀ pid p st, u.isAuthenticated = true → is_staff_or_superuser u = false →
      findProduct s pid = some p → productStore s p = some st →
      st.vendorId = u.id →
      s.orderItems.any (fun it => it.productId == pid) = false →
      (api_product_delete s u pid).1 = Except.ok ()) := by
  refine ⟨?_, ?_, ?_, ?_, ?_⟩
  · cases hS : is_staff_or_superuser u <;>
      simp [isVendor_has_permission, hS]
  · intro n d hauth hgrp hneq
    have hbeq : (pyStrip n == "") = false := beq_eq_false_iff_ne.mpr hneq
    have hmem : ("Vendors" : String) ∉ u.groups := by simpa using hgrp
    unfold api_store_create isVendor_has_permission
    cases hS : is_staff_or_superuser u <;>
      simp [hauth, hmem, hbeq, hS]
  · intro n d hauth hgrp
    have hmem : ("Vendors" : String) ∉ u.groups := by simpa using hgrp
    simp [store_create, is_vendor, hauth, hmem]
  · intro pid attrs p hfp hop hpr hstk hauth hgrp
    have hmem : ("Vendors" : String) ∉ u.groups := by simpa using hgrp
    unfold api_product_update
    rw [hpr, hstk]
    simp [hfp, hop, hauth, hmem]
  · intro pid p st hauth hstaff hfp hps hvend hprot
    unfold api_product_delete
    simp [hfp, isOwnerOrReadOnly_has_object_permission, hauth, hstaff, hps,
      hvend, hprot]

/-- Witness for C8 at concrete inputs: the staff non-vendor is denied by both
store-creation paths and by the API product update; the non-staff, non-vendor
owner of store 1 deletes product 10 through the API unchecked for role. -/
theorem c8_role_gates_witness :
    api_store_create sampleState staffUser "Shop" "d" =
      (Except.error ApiError.RoleNotPermitted, sampleState) ∧
    store_create sampleState staffUser "Shop" "d" =
      (Except.error ApiError.RoleNotPermitted, sampleState) ∧
    api_product_update sampleState staffUser 10 nameAttrs =
      (Except.error ApiError.RoleNotPermitted, sampleState) ∧
    (api_product_delete sampleState plainOwner 10).1 = Except.ok () :=
  ⟨(c8_role_gates sampleState staffUser).2.1 "Shop" "d" rfl rfl (by decide),
   (c8_role_gates sampleState staffUser).2.2.1 "Shop" "d" rfl rfl,
   (c8_role_gates sampleState staffUser).2.2.2.1 10 nameAttrs sampleProduct
     rfl rfl rfl rfl rfl rfl,
   (c8_role_gates sampleState plainOwner).2.2.2.2 10 sampleProduct
     { id := 1, vendorId := 1, name := "S1", description := "" }
     rfl rfl rfl rfl rfl rfl⟩

-- ---------- Claim C5 ----------

/-- In a cart with distinct keys, the quantity looked up for a member entry's
key is that entry's quantity. -/
theorem lookupQty_eq_of_mem {cart : List (Nat × Int)} {e : Nat × Int}
    (hnd : (cart.map Prod.fst).Nodup) (he : e ∈ cart) :
    lookupQty cart e.1 = e.2 := by
  induction cart with
  | nil => cases he
  | cons a t ih =>
    simp only [List.map_cons, List.nodup_cons] at hnd
    rcases List.mem_cons.mp he with rfl | het
    · simp [lookupQty]
    · have hne : (a.1 == e.1) = false := by
        simp only [beq_eq_false_iff_ne, ne_eq]
        intro hcontra
        exact hnd.1 (hcontra ▸ List.mem_map_of_mem Prod.fst het)
      unfold lookupQty
      rw [List.find?_cons_of_neg _ (by simp [hne])]
      exact ih hnd.2 het

/-- If some product in the list has a positive requested quantity exceeding
its stock, the validation loop aborts with `InsufficientStock` for such a
product. -/
theorem collectLines_insufficient (cart : List (Nat × Int)) (ps : List Product)
    (hbad : ∃ p ∈ ps, 0 < lookupQty cart p.id ∧
      (p.stock : Int) < lookupQty cart p.id) :
    ∃ j, collectLines cart ps = Except.error (ApiError.InsufficientStock j) ∧
      ∃ p ∈ ps, p.id = j ∧ 0 < lookupQty cart p.id ∧
        (p.stock : Int) < lookupQty cart p.id := by
  induction ps with
  | nil => simp at hbad
  | cons a t ih =>
    by_cases hq : lookupQty cart a.id ≤ 0
    · have hbad' : ∃ p ∈ t, 0 < lookupQty cart p.id ∧
          (p.stock : Int) < lookupQty cart p.id := by
        rcases hbad with ⟨p, hp, h1, h2⟩
        rcases List.mem_cons.mp hp with rfl | hpt
        · omega
        · exact ⟨p, hpt, h1, h2⟩
      obtain ⟨j, hcol, p, hp, hrest⟩ := ih hbad'
      exact ⟨j, by simpa [collectLines, hq] using hcol,
        p, List.mem_cons_of_mem a hp, hrest⟩
    · push_neg at hq
      by_cases hs : (a.stock : Int) < lookupQty cart a.id
      · exact ⟨a.id, by simp [collectLines, not_le.mpr hq, hs],
          a, List.mem_cons_self a t, rfl, hq, hs⟩
      · have hbad' : ∃ p ∈ t, 0 < lookupQty cart p.id ∧
            (p.stock : Int) < lookupQty cart p.id := by
          rcases hbad with ⟨p, hp, h1, h2⟩
          rcases List.mem_cons.mp hp with rfl | hpt
          · exact absurd h2 hs
          · exact ⟨p, hpt, h1, h2⟩
        obtain ⟨j, hcol, p, hp, hrest⟩ := ih hbad'
        refine ⟨j, ?_, p, List.mem_cons_of_mem a hp, hrest⟩
        simp [collectLines, not_le.mpr hq, hs, hcol]

/-- Claim C5: if any cart line (for an existing product) requests a positive
quantity exceeding that product's stock, `place_order` rejects the whole
operation with `InsufficientStock` for such a product and leaves the state —
stock, orders, order items and cart — exactly as it was. -/
theorem c5_insufficient_stock (s : State) (u : User)
    (hauth : u.isAuthenticated = true)
    (hnd : (s.cart.map Prod.fst).Nodup)
    (hbad : ∃ e ∈ s.cart, 0 < e.2 ∧ ∃ p ∈ s.products, p.id = e.1 ∧
      (p.stock : Int) < e.2) :
    ∃ j, place_order s u = (Except.error (ApiError.InsufficientStock j), s) ∧
      ∃ p ∈ s.products, p.id = j ∧ 0 < lookupQty s.cart p.id ∧
        (p.stock : Int) < lookupQty s.cart p.id := by
  obtain ⟨e, he, hpos, p, hp, hpe, hstk⟩ := hbad
  have hlook : lookupQty s.cart p.id = e.2 := by rw [hpe]; exact lookupQty_eq_of_mem hnd he
  have hfetch : p ∈ fetchCartProducts s.products s.cart := by
    refine List.mem_filter.mpr ⟨hp, ?_⟩
    exact List.any_eq_true.mpr ⟨e, he, by simp [hpe]⟩
  obtain ⟨j, hcol, p', hp', hrest⟩ :=
    collectLines_insufficient s.cart (fetchCartProducts s.products s.cart)
      ⟨p, hfetch, by rw [hlook]; exact hpos, by rw [hlook]; exact hstk⟩
  have hne : s.cart.isEmpty = false := by
    have : s.cart ≠ [] := by intro hc; rw [hc] at he; cases he
    simpa [List.isEmpty_iff] using this
  refine ⟨j, ?_, p', List.mem_of_mem_filter hp', hrest⟩
  unfold place_order
  simp [hauth, hne, hcol]

/-- Witness for C5: the cart of 3 × product 11 (stock 2) is rejected with
`InsufficientStock 11` and the state survives untouched. -/
theorem c5_insufficient_stock_witness :
    place_order insufficientCartState buyerUser =
      (Except.error (ApiError.InsufficientStock 11), insufficientCartState) := by
  obtain ⟨j, hj, -⟩ :=
    c5_insufficient_stock insufficientCartState buyerUser rfl (by decide) (by decide)
  have hj11 : j = 11 := by
    have hcomp : place_order insufficientCartState buyerUser =
        (Except.error (ApiError.InsufficientStock 11), insufficientCartState) := rfl
    have := hj.symm.trans hcomp
    simpa using this
  rw [← hj11]
  exact hj

-- ---------- Claim C9 ----------

/-- In a cart with distinct keys, two entries sharing a key are equal. -/
theorem pair_eq_of_nodup_keys {c : List (Nat × Int)} {e f : Nat × Int}
    (hnd : (c.map Prod.fst).Nodup) (he : e ∈ c) (hf : f ∈ c) (hk : e.1 = f.1) :
    e = f := by
  induction c with
  | nil => cases he
  | cons a t ih =>
    simp only [List.map_cons, List.nodup_cons] at hnd
    rcases List.mem_cons.mp he with rfl | het <;>
      rcases List.mem_cons.mp hf with rfl | hft
    · rfl
    · exfalso
      apply hnd.1
      rw [hk]
      exact List.mem_map_of_mem Prod.fst hft
    · exfalso
      apply hnd.1
      rw [← hk]
      exact List.mem_map_of_mem Prod.fst het
    · exact ih hnd.2 het hft

/-- A product with a cart entry stays in the fetched list. -/
theorem fetch_cons_pos {ps : List Product} {cart : List (Nat × Int)}
    {a : Product} (h : cart.any (fun e => e.1 == a.id) = true) :
    fetchCartProducts (a :: ps) cart = a :: fetchCartProducts ps cart := by
  simp [fetchCartProducts, List.filter_cons, h]

/-- A product without a cart entry is not fetched. -/
theorem fetch_cons_neg {ps : List Product} {cart : List (Nat × Int)}
    {a : Product} (h : cart.any (fun e => e.1 == a.id) = false) :
    fetchCartProducts (a :: ps) cart = fetchCartProducts ps cart := by
  simp [fetchCartProducts, List.filter_cons, h]

/-- The validation loop skips a head with non-positive requested quantity. -/
theorem collectLines_cons_skip {cart : List (Nat × Int)} {p : Product}
    {rest : List Product} (h : lookupQty cart p.id ≤ 0) :
    collectLines cart (p :: rest) = collectLines cart rest := by
  simp [collectLines, h]

/-- The validation loop aborts on a head with insufficient stock. -/
theorem collectLines_cons_bad {cart : List (Nat × Int)} {p : Product}
    {rest : List Product} (h1 : 0 < lookupQty cart p.id)
    (h2 : (p.stock : Int) < lookupQty cart p.id) :
    collectLines cart (p :: rest) =
      Except.error (ApiError.InsufficientStock p.id) := by
  simp [collectLines, not_le.mpr h1, h2]

/-- The validation loop keeps a satisfiable head and continues. -/
theorem collectLines_cons_go {cart : List (Nat × Int)} {p : Product}
    {rest : List Product} (h1 : 0 < lookupQty cart p.id)
    (h2 : ¬(p.stock : Int) < lookupQty cart p.id) :
    collectLines cart (p :: rest) =
      match collectLines cart rest with
      | Except.error e => Except.error e
      | Except.ok ls => Except.ok ((p, (lookupQty cart p.id).toNat) :: ls) := by
  simp [collectLines, not_le.mpr h1, h2]

/-- If every product in the list has a non-positive requested quantity, the
validation loop collects nothing. -/
theorem collectLines_all_skip {cart : List (Nat × Int)} {ps : List Product}
    (h : ∀ p ∈ ps, lookupQty cart p.id ≤ 0) :
    collectLines cart ps = Except.ok [] := by
  induction ps with
  | nil => rfl
  | cons a t ih =>
    rw [collectLines_cons_skip (h a (List.mem_cons_self a t))]
    exact ih (fun p hp => h p (List.mem_cons_of_mem a hp))

/-- Dropping the skipped cart entries (non-positive quantity or unknown
product id) does not change the outcome of the validation loop over any
product sub-table. -/
theorem collect_skip_invalid (s : State)
    (hnd : (s.cart.map Prod.fst).Nodup) :
    ∀ ps : List Product, (∀ p ∈ ps, p ∈ s.products) →
      collectLines (validCartEntries s)
          (fetchCartProducts ps (validCartEntries s)) =
        collectLines s.cart (fetchCartProducts ps s.cart) := by
  intro ps
  induction ps with
  | nil => intro _; rfl
  | cons a t ih =>
    intro hsub
    have iht := ih (fun p hp => hsub p (List.mem_cons_of_mem a hp))
    cases hc : s.cart.find? (fun e => e.1 == a.id) with
    | none =>
      have hnotc : s.cart.any (fun e => e.1 == a.id) = false := by
        rw [List.any_eq_false]
        intro e hec
        exact List.find?_eq_none.mp hc e hec
      have hnotv : (validCartEntries s).any (fun e => e.1 == a.id) = false := by
        rw [List.any_eq_false]
        intro e hev
        exact List.find?_eq_none.mp hc e (List.mem_of_mem_filter hev)
      rw [fetch_cons_neg hnotc, fetch_cons_neg hnotv]
      exact iht
    | some e =>
      have hec : e ∈ s.cart := List.mem_of_find?_eq_some hc
      have hk := List.find?_some hc
      have hk' : e.1 = a.id := by simpa using hk
      have hanyc : s.cart.any (fun x => x.1 == a.id) = true :=
        List.any_eq_true.mpr ⟨e, hec, hk⟩
      have hlookc : lookupQty s.cart a.id = e.2 := by
        unfold lookupQty
        rw [hc]
      by_cases hq : e.2 ≤ 0
      · have hnotv : (validCartEntries s).any (fun x => x.1 == a.id) = false := by
          rw [List.any_eq_false]
          intro f hfv hkf
          have hfc := List.mem_of_mem_filter hfv
          have hpred := (List.mem_filter.mp hfv).2
          have hfe : f = e :=
            pair_eq_of_nodup_keys hnd hfc hec (by simp at hkf; rw [hkf, hk'])
          rw [hfe] at hpred
          simp only [Bool.and_eq_true, decide_eq_true_eq] at hpred
          omega
        rw [fetch_cons_pos hanyc, fetch_cons_neg hnotv,
          collectLines_cons_skip (by rw [hlookc]; exact hq)]
        exact iht
      · push_neg at hq
        have hev : e ∈ validCartEntries s := by
          refine List.mem_filter.mpr ⟨hec, ?_⟩
          simp only [Bool.and_eq_true, decide_eq_true_eq]
          refine ⟨hq, List.any_eq_true.mpr ⟨a, hsub a (List.mem_cons_self a t), ?_⟩⟩
          simp [hk']
        have hanyv : (validCartEntries s).any (fun x => x.1 == a.id) = true :=
          List.any_eq_true.mpr ⟨e, hev, hk⟩
        have hndv : ((validCartEntries s).map Prod.fst).Nodup :=
          ((List.filter_sublist s.cart).map Prod.fst).nodup hnd
        have hlookv : lookupQty (validCartEntries s) a.id = e.2 := by
          cases hv : (validCartEntries s).find? (fun x => x.1 == a.id) with
          | none => exact absurd hk (List.find?_eq_none.mp hv e hev)
          | some f =>
            have hfe : f = e :=
              pair_eq_of_nodup_keys hnd
                (List.mem_of_mem_filter (List.mem_of_find?_eq_some hv)) hec
                (by have := List.find?_some hv; simp at this; rw [this, hk'])
            unfold lookupQty
            rw [hv, hfe]
        rw [fetch_cons_pos hanyc, fetch_cons_pos hanyv]
        by_cases hs : (a.stock : Int) < e.2
        · rw [collectLines_cons_bad (by rw [hlookv]; exact hq) (by rw [hlookv]; exact hs),
            collectLines_cons_bad (by rw [hlookc]; exact hq) (by rw [hlookc]; exact hs)]
        · rw [collectLines_cons_go (by rw [hlookv]; exact hq) (by rw [hlookv]; exact hs),
            collectLines_cons_go (by rw [hlookc]; exact hq) (by rw [hlookc]; exact hs),
            iht, hlookv, hlookc]

/-- Claim C9: cart entries with an unknown product id or a non-positive
quantity are silently skipped by `place_order` (never a `NotFound`): with
distinct cart keys, if no valid entry remains the call is rejected leaving
the state unchanged (no order, no stock change), and otherwise the outcome —
result, product table, orders and order items — is the same as for the cart
restricted to its valid entries. -/
theorem c9_invalid_cart_entries (s : State) (u : User)
    (hauth : u.isAuthenticated = true)
    (hnd : (s.cart.map Prod.fst).Nodup) :
    (s.cart ≠ [] → validCartEntries s = [] →
      place_order s u = (Except.error ApiError.NoValidItems, s)) ∧
    (validCartEntries s ≠ [] →
      (place_order s u).1 = (place_order { s with cart := validCartEntries s } u).1 ∧
      (place_order s u).2.products =
        (place_order { s with cart := validCartEntries s } u).2.products ∧
      (place_order s u).2.orders =
        (place_order { s with cart := validCartEntries s } u).2.orders ∧
      (place_order s u).2.orderItems =
        (place_order { s with cart := validCartEntries s } u).2.orderItems) := by
  constructor
  · intro hcne hveq
    have hall : ∀ p ∈ fetchCartProducts s.products s.cart,
        lookupQty s.cart p.id ≤ 0 := by
      intro p hp
      have hpprod : p ∈ s.products := List.mem_of_mem_filter hp
      cases hfind : s.cart.find? (fun x => x.1 == p.id) with
      | none => unfold lookupQty; rw [hfind]
      | some e =>
        have hec := List.mem_of_find?_eq_some hfind
        have hke : e.1 = p.id := by simpa using List.find?_some hfind
        unfold lookupQty
        rw [hfind]
        by_contra hpos
        push_neg at hpos
        have hev : e ∈ validCartEntries s := by
          refine List.mem_filter.mpr ⟨hec, ?_⟩
          simp only [Bool.and_eq_true, decide_eq_true_eq]
          exact ⟨hpos, List.any_eq_true.mpr ⟨p, hpprod, by simp [hke]⟩⟩
        rw [hveq] at hev
        cases hev
    have hcol := collectLines_all_skip hall
    have hE1 : s.cart.isEmpty = false := by simpa [List.isEmpty_iff] using hcne
    unfold place_order
    simp [hauth, hE1, hcol]
  · intro hv
    have hcne : s.cart ≠ [] := by
      intro hceq
      apply hv
      simp [validCartEntries, hceq]
    have hskip := collect_skip_invalid s hnd s.products (fun p hp => hp)
    have hE1 : s.cart.isEmpty = false := by simpa [List.isEmpty_iff] using hcne
    have hE2 : (validCartEntries s).isEmpty = false := by
      simpa [List.isEmpty_iff] using hv
    unfold place_order
    simp only [hauth, Bool.not_true, Bool.false_eq_true, if_false, hE1, hE2,
      hskip]
    cases hr : collectLines s.cart (fetchCartProducts s.products s.cart) with
    | error e => simp
    | ok ls =>
      cases ls with
      | nil => simp
      | cons l ls0 => simp

/-- Witness for C9: a cart whose entries are all invalid is rejected with the
state untouched; adding an unknown id and a zero-quantity line to a valid
cart changes nothing about the outcome. -/
theorem c9_invalid_cart_entries_witness :
    place_order uselessCartState buyerUser =
      (Except.error ApiError.NoValidItems, uselessCartState) ∧
    (place_order mixedCartState buyerUser).1 =
      (place_order { mixedCartState with
        cart := validCartEntries mixedCartState } buyerUser).1 ∧
    (place_order mixedCartState buyerUser).2.products =
      (place_order { mixedCartState with
        cart := validCartEntries mixedCartState } buyerUser).2.products :=
  ⟨(c9_invalid_cart_entries uselessCartState buyerUser rfl (by decide)).1
      (by decide) (by decide),
   ((c9_invalid_cart_entries mixedCartState buyerUser rfl (by decide)).2
      (by decide)).1,
   ((c9_invalid_cart_entries mixedCartState buyerUser rfl (by decide)).2
      (by decide)).2.1⟩

-- ---------- Claim C6 ----------

/-- In a table with distinct ids, `find?`-by-id returns the member itself. -/
theorem find_self_of_nodup {l : List Product} {p : Product}
    (hnd : (l.map Product.id).Nodup) (hp : p ∈ l) :
    l.find? (fun q => q.id == p.id) = some p := by
  cases hq : l.find? (fun q => q.id == p.id) with
  | none =>
    exfalso
    have := List.find?_eq_none.mp hq p hp
    simp at this
  | some q =>
    rw [find_eq_of_nodup_ids hnd hq hp rfl]

/-- `findProduct` on a member of a duplicate-free product table. -/
theorem findProduct_self {s : State}
    (hnd : (s.products.map Product.id).Nodup) {p : Product}
    (hp : p ∈ s.products) : findProduct s p.id = some p :=
  find_self_of_nodup hnd hp

/-- When every listed product's requested quantity is positive and within
stock, the validation loop collects one line per product, in order. -/
theorem collectLines_ok {cart : List (Nat × Int)} {ps : List Product}
    (h : ∀ p ∈ ps, 0 < lookupQty cart p.id ∧
      lookupQty cart p.id ≤ (p.stock : Int)) :
    collectLines cart ps =
      Except.ok (ps.map (fun p => (p, (lookupQty cart p.id).toNat))) := by
  induction ps with
  | nil => rfl
  | cons a t ih =>
    obtain ⟨h1, h2⟩ := h a (List.mem_cons_self a t)
    rw [collectLines_cons_go h1 (not_lt.mpr h2),
      ih (fun p hp => h p (List.mem_cons_of_mem a hp))]
    rfl

/-- Folding `acc + g x` is adding the mapped sum. -/
theorem foldl_add_eq_sum (g : Product × Nat → Int) (ls : List (Product × Nat)) :
    ∀ acc : Int, ls.foldl (fun a pq => a + g pq) acc = acc + (ls.map g).sum := by
  induction ls with
  | nil => intro acc; simp
  | cons a t ih =>
    intro acc
    simp only [List.foldl_cons, List.map_cons, List.sum_cons, ih]
    ring

/-- `linesTotal` is the sum of price × quantity over the lines. -/
theorem linesTotal_eq_sum (ls : List (Product × Nat)) :
    linesTotal ls = (ls.map (fun pq => pq.1.price * (pq.2 : Int))).sum := by
  unfold linesTotal
  simpa using foldl_add_eq_sum (fun pq => pq.1.price * (pq.2 : Int)) ls 0

/-- Explicit success form of `place_order`: once the validation loop collects
a non-empty line list, the order, its items, the stock decrements, and the
cart clearing are exactly as written in the view. -/
theorem place_order_ok (s : State) (u : User)
    (hauth : u.isAuthenticated = true)
    (hne : s.cart.isEmpty = false)
    (lines : List (Product × Nat)) (hlines : lines ≠ [])
    (hcol : collectLines s.cart (fetchCartProducts s.products s.cart) =
      Except.ok lines) :
    place_order s u =
      (Except.ok { id := s.nextOrderId, userId := u.id,
                   total := linesTotal lines, status := "paid" },
       { s with
           products := s.products.map (fun q =>
             match lines.find? (fun pq => pq.1.id == q.id) with
             | some pq => { q with stock := q.stock - pq.2 }
             | none => q),
           orders := s.orders ++ [{ id := s.nextOrderId, userId := u.id,
                                    total := linesTotal lines,
                                    status := "paid" }],
           orderItems := s.orderItems ++ lines.map (fun pq =>
             { orderId := s.nextOrderId, productId := pq.1.id, qty := pq.2,
               priceSnapshot := pq.1.price }),
           cart := [],
           nextOrderId := s.nextOrderId + 1 }) := by
  cases lines with
  | nil => exact absurd rfl hlines
  | cons l ls =>
    unfold place_order
    simp [hauth, hne, hcol, linesTotal]

/-- Mapping the stock decrement over the table commutes with the
by-id lookup, because the decrement never touches the id. -/
theorem findProduct_map_dec (ps : List Product) (lines : List (Product × Nat))
    (k : Nat) :
    ((ps.map (fun q =>
        match lines.find? (fun pq => pq.1.id == q.id) with
        | some pq => { q with stock := q.stock - pq.2 }
        | none => q)).find? (fun q => q.id == k)) =
      (ps.find? (fun q => q.id == k)).map (fun q =>
        match lines.find? (fun pq => pq.1.id == q.id) with
        | some pq => { q with stock := q.stock - pq.2 }
        | none => q) := by
  rw [List.find?_map]
  have hpred : ((fun q : Product => q.id == k) ∘ (fun q =>
      match lines.find? (fun pq => pq.1.id == q.id) with
      | some pq => { q with stock := q.stock - pq.2 }
      | none => q)) = (fun q : Product => q.id == k) := by
    funext q
    simp only [Function.comp_apply]
    cases hq : lines.find? (fun pq => pq.1.id == q.id) <;> simp [hq]
  rw [hpred]

/-- Claim C6: for a non-empty cart with distinct keys over a duplicate-free
product table, where every line requests a positive quantity of an existing
product within its stock, `place_order` succeeds: the order total is the sum
of current price × quantity over the cart lines, every referenced product's
stock drops by exactly the requested quantity (its price untouched), an
order item with `price_snapshot` equal to the price at placement time is
recorded per line, the cart is cleared, and the order is appended. -/
theorem c6_checkout_success (s : State) (u : User)
    (hauth : u.isAuthenticated = true)
    (hndc : (s.cart.map Prod.fst).Nodup)
    (hndp : (s.products.map Product.id).Nodup)
    (hne : s.cart ≠ [])
    (hvalid : ∀ e ∈ s.cart, 0 < e.2 ∧ ∃ p ∈ s.products,
      findProduct s e.1 = some p ∧ e.2 ≤ (p.stock : Int)) :
    ∃ ord s2, place_order s u = (Except.ok ord, s2) ∧
      ord.total = (s.cart.map (fun e => priceOf s e.1 * e.2)).sum ∧
      (∀ e ∈ s.cart, ∃ p p', findProduct s e.1 = some p ∧
        findProduct s2 e.1 = some p' ∧
        (p'.stock : Int) = (p.stock : Int) - e.2 ∧ p'.price = p.price) ∧
      (∀ e ∈ s.cart, ∃ it ∈ s2.orderItems, it.orderId = ord.id ∧
        it.productId = e.1 ∧ (it.qty : Int) = e.2 ∧
        it.priceSnapshot = priceOf s e.1) ∧
      s2.cart = [] ∧ s2.orders = s.orders ++ [ord] := by
  have hkey : ∀ e ∈ s.cart, ∃ p ∈ s.products, p.id = e.1 ∧
      findProduct s e.1 = some p ∧ 0 < e.2 ∧ e.2 ≤ (p.stock : Int) := by
    intro e he
    obtain ⟨hpos, p, hp, hfind, hle⟩ := hvalid e he
    have hfind' : s.products.find? (fun q => q.id == e.1) = some p := hfind
    have hid : p.id = e.1 := by simpa using List.find?_some hfind'
    exact ⟨p, hp, hid, hfind, hpos, hle⟩
  have hFgood : ∀ p ∈ fetchCartProducts s.products s.cart,
      0 < lookupQty s.cart p.id ∧ lookupQty s.cart p.id ≤ (p.stock : Int) := by
    intro p hpF
    have hpprod : p ∈ s.products := List.mem_of_mem_filter hpF
    have hany : s.cart.any (fun e => e.1 == p.id) = true :=
      (List.mem_filter.mp hpF).2
    obtain ⟨e, he, hbeq⟩ := List.any_eq_true.mp hany
    have hke : e.1 = p.id := by simpa using hbeq
    have hlook : lookupQty s.cart p.id = e.2 := by
      rw [← hke]
      exact lookupQty_eq_of_mem hndc he
    obtain ⟨p2, hp2, hid2, hfind2, hpos, hle⟩ := hkey e he
    have hfp : findProduct s e.1 = some p := by
      rw [hke]
      exact findProduct_self hndp hpprod
    have hpp : p2 = p := by
      rw [hfp] at hfind2
      exact (Option.some.inj hfind2).symm
    subst hpp
    constructor
    · rw [hlook]; exact hpos
    · rw [hlook]; exact hle
  have hlines := collectLines_ok hFgood
  obtain ⟨e0, he0⟩ : ∃ e, e ∈ s.cart := by
    cases hcc : s.cart with
    | nil => exact absurd hcc hne
    | cons x xs => exact ⟨x, List.mem_cons_self x xs⟩
  obtain ⟨p0, hp0, hid0, hfind0, hpos0, hle0⟩ := hkey e0 he0
  have hp0F : p0 ∈ fetchCartProducts s.products s.cart :=
    List.mem_filter.mpr ⟨hp0, List.any_eq_true.mpr ⟨e0, he0, by simp [hid0]⟩⟩
  have hFnodup : ((fetchCartProducts s.products s.cart).map Product.id).Nodup :=
    ((List.filter_sublist s.products).map Product.id).nodup hndp
  have hFne : (fetchCartProducts s.products s.cart).map
      (fun p => (p, (lookupQty s.cart p.id).toNat)) ≠ [] := by
    intro hnil
    rw [List.map_eq_nil_iff] at hnil
    rw [hnil] at hp0F
    cases hp0F
  have hEmp : s.cart.isEmpty = false := by simpa [List.isEmpty_iff] using hne
  have hPO := place_order_ok s u hauth hEmp _ hFne hlines
  refine ⟨_, _, hPO, ?_, ?_, ?_, rfl, rfl⟩
  · -- the order total is the cart-indexed sum of price × quantity
    show linesTotal ((fetchCartProducts s.products s.cart).map
      (fun p => (p, (lookupQty s.cart p.id).toNat))) = _
    rw [linesTotal_eq_sum]
    have hmapF : ((fetchCartProducts s.products s.cart).map
        (fun p => (p, (lookupQty s.cart p.id).toNat))).map
          (fun pq => pq.1.price * (pq.2 : Int)) =
        ((fetchCartProducts s.products s.cart).map Product.id).map
          (fun k => priceOf s k * lookupQty s.cart k) := by
      simp only [List.map_map]
      refine List.map_congr_left ?_
      intro p hpF
      have h1 := hFgood p hpF
      simp only [Function.comp_apply]
      rw [Int.toNat_of_nonneg (le_of_lt h1.1)]
      have : priceOf s p.id = p.price := by
        rw [priceOf, findProduct_self hndp (List.mem_of_mem_filter hpF)]
      rw [this]
    have hmapC : s.cart.map (fun e => priceOf s e.1 * e.2) =
        (s.cart.map Prod.fst).map
          (fun k => priceOf s k * lookupQty s.cart k) := by
      simp only [List.map_map]
      refine List.map_congr_left ?_
      intro e he
      simp only [Function.comp_apply]
      rw [lookupQty_eq_of_mem hndc he]
    have hperm : ((fetchCartProducts s.products s.cart).map Product.id).Perm
        (s.cart.map Prod.fst) := by
      refine (List.perm_ext_iff_of_nodup hFnodup hndc).mpr ?_
      intro k
      constructor
      · intro hk
        obtain ⟨p, hpF, hpk⟩ := List.mem_map.mp hk
        have hany := (List.mem_filter.mp hpF).2
        obtain ⟨e, he, hbeq⟩ := List.any_eq_true.mp hany
        have hek : e.1 = k := by
          have : e.1 = p.id := by simpa using hbeq
          rw [this, hpk]
        exact hek ▸ List.mem_map_of_mem Prod.fst he
      · intro hk
        obtain ⟨e, he, hek⟩ := List.mem_map.mp hk
        obtain ⟨p, hp, hid, _, _, _⟩ := hkey e he
        have hpF : p ∈ fetchCartProducts s.products s.cart :=
          List.mem_filter.mpr ⟨hp, List.any_eq_true.mpr ⟨e, he, by simp [hid]⟩⟩
        have hpk : p.id = k := by rw [hid, hek]
        exact hpk ▸ List.mem_map_of_mem Product.id hpF
    rw [hmapF, hmapC]
    exact (hperm.map (fun k => priceOf s k * lookupQty s.cart k)).sum_eq
  · -- every referenced product's stock decreases by the requested quantity
    intro e he
    obtain ⟨p, hp, hid, hfind, hpos, hle⟩ := hkey e he
    have hpF : p ∈ fetchCartProducts s.products s.cart :=
      List.mem_filter.mpr ⟨hp, List.any_eq_true.mpr ⟨e, he, by simp [hid]⟩⟩
    have hlook : lookupQty s.cart p.id = e.2 := by
      rw [hid]
      exact lookupQty_eq_of_mem hndc he
    have hlinefind : ((fetchCartProducts s.products s.cart).map
        (fun p => (p, (lookupQty s.cart p.id).toNat))).find?
          (fun pq => pq.1.id == p.id) =
        some (p, (lookupQty s.cart p.id).toNat) := by
      rw [List.find?_map]
      have hcomp : ((fun pq : Product × Nat => pq.1.id == p.id) ∘
          (fun p => (p, (lookupQty s.cart p.id).toNat))) =
          (fun q : Product => q.id == p.id) := rfl
      rw [hcomp, find_self_of_nodup hFnodup hpF]
      rfl
    refine ⟨p, { p with stock := p.stock - (lookupQty s.cart p.id).toNat },
      hfind, ?_, ?_, rfl⟩
    · have hgoal : ((s.products.map (fun q =>
          match (List.map (fun p1 => (p1, (lookupQty s.cart p1.id).toNat))
              (fetchCartProducts s.products s.cart)).find?
                (fun pq => pq.1.id == q.id) with
          | some pq => { q with stock := q.stock - pq.2 }
          | none => q)).find? (fun q => q.id == e.1)) =
          some { p with stock := p.stock - (lookupQty s.cart p.id).toNat } := by
        rw [findProduct_map_dec]
        have hfind' : s.products.find? (fun q => q.id == e.1) = some p := hfind
        rw [hfind', Option.map_some', hlinefind]
      exact hgoal
    · show ((p.stock - (lookupQty s.cart p.id).toNat : Nat) : Int) =
        (p.stock : Int) - e.2
      rw [hlook]
      have h2 : (e.2.toNat : Int) = e.2 := Int.toNat_of_nonneg (le_of_lt hpos)
      omega
  · -- one order item per cart line, snapshotting the placement-time price
    intro e he
    obtain ⟨p, hp, hid, hfind, hpos, hle⟩ := hkey e he
    have hpF : p ∈ fetchCartProducts s.products s.cart :=
      List.mem_filter.mpr ⟨hp, List.any_eq_true.mpr ⟨e, he, by simp [hid]⟩⟩
    have hlook : lookupQty s.cart p.id = e.2 := by
      rw [hid]
      exact lookupQty_eq_of_mem hndc he
    refine ⟨{ orderId := s.nextOrderId, productId := p.id,
              qty := (lookupQty s.cart p.id).toNat,
              priceSnapshot := p.price }, ?_, rfl, hid, ?_, ?_⟩
    · apply List.mem_append_right
      exact List.mem_map_of_mem _ (List.mem_map_of_mem
        (fun p => (p, (lookupQty s.cart p.id).toNat)) hpF)
    · show ((lookupQty s.cart p.id).toNat : Int) = e.2
      rw [hlook]
      exact Int.toNat_of_nonneg (le_of_lt hpos)
    · show p.price = priceOf s e.1
      rw [priceOf, hfind]

/-- Witness for C6: checking out the cart {product 10 × 2, product 11 × 1}
(prices 500 and 300, stocks 5 and 2) yields an order with total 1300, leaves
stocks 3 and 1, and clears the cart. -/
theorem c6_checkout_success_witness :
    (place_order happyCartState buyerUser).1 =
      Except.ok { id := 1, userId := 4, total := 1300, status := "paid" } ∧
    Option.map Product.stock
      (findProduct (place_order happyCartState buyerUser).2 10) = some 3 ∧
    Option.map Product.stock
      (findProduct (place_order happyCartState buyerUser).2 11) = some 1 ∧
    (place_order happyCartState buyerUser).2.cart = [] := by
  obtain ⟨ord, s2, hpo, -, -, -, -, -⟩ :=
    c6_checkout_success happyCartState buyerUser rfl (by decide) (by decide)
      (by decide) (by decide)
  exact ⟨rfl, rfl, rfl, rfl⟩

end ECom
